import Mathlib

/-!
Shallow embedding of the TerminalView plugin core (rwols/TerminalView),
covering `linux_pty.py` (the `LinuxPty` process session) and
`TerminalView2.py` (the frame loop bookkeeping: row spans, color regions,
view size, resize detection), together with theorems checking the
specification's claims against it.
-/

namespace TerminalView

/-! ### linux_pty.py : process/pty session state and observable effects -/

/-- Observable system effects a `LinuxPty` method can perform on the pty
pair (we record them instead of performing them). -/
inductive SysEffect where
  | ioctlWinsz (lines columns : Nat)
  | selectPty
  | readPty (maxReadSize : Nat)
  | writePty (data : String)
  deriving DecidableEq, Repr

/-- State of a `LinuxPty` object: `process` models `self._process`.
`none` models `self._process is None` (after `stop()`), and
`some alive` models a spawned child whose `poll()` returns `None`
exactly when `alive = true`. -/
structure LinuxPty where
  process : Option Bool
  deriving DecidableEq, Repr

/-- Embeds `LinuxPty.is_running`:
`self._process is not None and self._process.poll() is None`. -/
def LinuxPty.is_running (self : LinuxPty) : Bool :=
  match self.process with
  | some alive => alive
  | none => false

/-- Embeds `LinuxPty.receive_output(max_read_size, timeout)`.
The environment is passed in explicitly: `selectReady` is whether
`select.select` reports the pty master readable before the timeout, and
`ptyData` is what `os.read` would deliver. The result is the returned
value plus the trace of system calls actually performed. -/
def LinuxPty.receive_output (self : LinuxPty) (maxReadSize : Nat)
    (selectReady : Bool) (ptyData : String) : Option String × List SysEffect :=
  if ¬ self.is_running then (none, [])
  else if ¬ selectReady then (none, [SysEffect.selectPty])
  else (some (ptyData.take maxReadSize), [SysEffect.selectPty, SysEffect.readPty maxReadSize])

/-- The guard of `update_screen_size` is written `if self.is_running:` in the
source — it references the bound method object without calling it, and a
bound method object is always truthy in Python, so the guard is always
taken. -/
def is_running_attribute_truthiness : Bool := true

/-- Embeds `LinuxPty.update_screen_size(lines, columns)`: packs
`(lines, columns, 0, 0)` and issues the `TIOCSWINSZ` ioctl whenever the
guard `if self.is_running:` is truthy (which it always is, see
`is_running_attribute_truthiness`). Returns the trace of system calls
performed; the session state itself is not modified. -/
def LinuxPty.update_screen_size (_self : LinuxPty) (lines columns : Nat) : List SysEffect :=
  if is_running_attribute_truthiness then [SysEffect.ioctlWinsz lines columns] else []

/-! ### linux_pty.py : key maps and the key encoder -/

/-- Embeds the module-level dictionary `_LINUX_KEY_MAP`. -/
def LINUX_KEY_MAP : String → Option String
  | "enter" => some "\r"
  | "backspace" => some "\x7f"
  | "tab" => some "\t"
  | "space" => some " "
  | "escape" => some "\x1b"
  | "down" => some "\x1b[B"
  | "up" => some "\x1b[A"
  | "right" => some "\x1b[C"
  | "left" => some "\x1b[D"
  | "home" => some "\x1b[1~"
  | "end" => some "\x1b[4~"
  | "pageup" => some "\x1b[5~"
  | "pagedown" => some "\x1b[6~"
  | "delete" => some "\x1b[3~"
  | "insert" => some "\x1b[2~"
  | "f1" => some "\x1bOP"
  | "f2" => some "\x1bOQ"
  | "f3" => some "\x1bOR"
  | "f4" => some "\x1bOS"
  | "f5" => some "\x1b[15~"
  | "f6" => some "\x1b[17~"
  | "f7" => some "\x1b[18~"
  | "f8" => some "\x1b[19~"
  | "f9" => some "\x1b[20~"
  | "f10" => some "\x1b[21~"
  | "f12" => some "\x1b[24~"
  | _ => none

/-- Embeds the module-level dictionary `_LINUX_CTRL_KEY_MAP`
(the `"\x7b"`/`"\x7d"` entries are the literal brace keys). -/
def LINUX_CTRL_KEY_MAP : String → Option String
  | "up" => some "\x1b[1;5A"
  | "down" => some "\x1b[1;5B"
  | "right" => some "\x1b[1;5C"
  | "left" => some "\x1b[1;5D"
  | "@" => some "\x00"
  | "`" => some "\x00"
  | "[" => some "\x1b"
  | "\x7b" => some "\x1b"
  | "\\" => some "\x1c"
  | "|" => some "\x1c"
  | "]" => some "\x1d"
  | "\x7d" => some "\x1d"
  | "^" => some "\x1e"
  | "~" => some "\x1e"
  | "_" => some "\x1f"
  | "?" => some "\x7f"
  | _ => none

/-- Embeds the module-level dictionary `_LINUX_ALT_KEY_MAP`. -/
def LINUX_ALT_KEY_MAP : String → Option String
  | "up" => some "\x1b[1;3A"
  | "down" => some "\x1b[1;3B"
  | "right" => some "\x1b[1;3C"
  | "left" => some "\x1b[1;3D"
  | _ => none

/-- ASCII case folding of one character, as Python `str.lower` performs it on
the ASCII key names occurring in this module. -/
def lowerChar (c : Char) : Char :=
  if 65 ≤ c.toNat ∧ c.toNat ≤ 90 then Char.ofNat (c.toNat + 32) else c

/-- Python `key.lower()` on a key-name string (ASCII case folding). -/
def pyLower (s : String) : String :=
  String.mk (s.data.map lowerChar)

/-- Embeds `LinuxPty._get_key_code(key)`: look the name up in
`_LINUX_KEY_MAP`; a name not found is passed through literally. -/
def get_key_code (key : String) : String :=
  match LINUX_KEY_MAP key with
  | some code => code
  | none => key

/-- Embeds `LinuxPty._get_ctrl_combination_key_code(key)`: lower-case the
key, try `_LINUX_CTRL_KEY_MAP`, else for a single character in `a..z`
compute `chr(ord(key) - ord('a') + 1)`, else fall back to
`_get_key_code`. -/
def get_ctrl_combination_key_code (key0 : String) : String :=
  let key := pyLower key0
  match LINUX_CTRL_KEY_MAP key with
  | some code => code
  | none =>
    match key.data with
    | [c] =>
      if 97 ≤ c.toNat ∧ c.toNat ≤ 122 then
        String.singleton (Char.ofNat (c.toNat - 96))
      else
        get_key_code key
    | _ => get_key_code key

/-- Embeds `LinuxPty._get_alt_combination_key_code(key)`: lower-case the
key, try `_LINUX_ALT_KEY_MAP`, else prefix the plain encoding with ESC. -/
def get_alt_combination_key_code (key0 : String) : String :=
  let key := pyLower key0
  match LINUX_ALT_KEY_MAP key with
  | some code => code
  | none => "\x1b" ++ get_key_code key

/-- The keycode computed by `LinuxPty.send_keypress(key, ctrl, alt, shift,
meta)` before it is written to the pty: `ctrl` takes priority, then `alt`,
else the plain table; `shift` and `meta` are not consulted. -/
def send_keypress_code (key : String) (ctrl alt _shift _meta : Bool) : String :=
  if ctrl then get_ctrl_combination_key_code key
  else if alt then get_alt_combination_key_code key
  else get_key_code key

/-- Embeds `LinuxPty.send_keypress` followed by `_send_string`: the keycode
is written to the pty master only when the session is running. Returns
the trace of pty writes performed. -/
def LinuxPty.send_keypress (self : LinuxPty) (key : String)
    (ctrl alt shift meta : Bool) : List SysEffect :=
  if self.is_running then [SysEffect.writePty (send_keypress_code key ctrl alt shift meta)]
  else []

/-! ### TerminalView2.py : keypress text command -/

/-- A Python value passed as the `key` entry of the keypress command's
kwargs: either a string or some non-string value. -/
inductive PyVal where
  | str (s : String)
  | nonStr
  deriving DecidableEq

/-- Outcome of `TerminalViewKeypressCommand.run`. -/
inductive KeypressOutcome where
  | nonStringKeyError
  | metaUnsupportedError
  | dispatched (key : String) (ctrl alt shift meta : Bool)
  | noActiveInstance
  deriving DecidableEq

/-- Embeds `TerminalViewKeypressCommand.run`: reject a non-string key,
then reject a present-and-truthy `meta`, then fill in missing modifier
kwargs with `False` and dispatch to the active instance's keypress
callback (if any). The modifier arguments are `Option Bool` because a
kwarg may be absent. -/
def keypress_command_run (key : PyVal) (ctrl alt shift meta : Option Bool)
    (hasActiveInstance : Bool) : KeypressOutcome :=
  match key with
  | PyVal.nonStr => KeypressOutcome.nonStringKeyError
  | PyVal.str k =>
    if meta.getD false then KeypressOutcome.metaUnsupportedError
    else if hasActiveInstance then
      KeypressOutcome.dispatched k (ctrl.getD false) (alt.getD false)
        (shift.getD false) (meta.getD false)
    else KeypressOutcome.noActiveInstance

/-- The pty writes performed by a keypress command: only a dispatched
keypress reaches `terminal_view_keypress_callback` and hence
`LinuxPty.send_keypress`. -/
def keypress_command_writes (shell : LinuxPty) (key : PyVal)
    (ctrl alt shift meta : Option Bool) (hasActiveInstance : Bool) : List SysEffect :=
  match keypress_command_run key ctrl alt shift meta hasActiveInstance with
  | KeypressOutcome.dispatched k c a s m => shell.send_keypress k c a s m
  | _ => []

/-! ### TerminalView2.py : row-span bookkeeping (`_buffer_contents`) -/

/-- `self._buffer_contents` is a dict from row index to the row's tracked
content (content with its trailing newline); we model it as a partial
function. -/
def trackedLen (buf : Nat → Option String) (i : Nat) : Nat :=
  match buf i with
  | some line => line.length
  | none => 0

/-- The accumulation loop of `_get_line_start_and_end_points`:
`for i in range(line_no): if i in self._buffer_contents: start += len`. -/
def line_start_point (buf : Nat → Option String) (lineNo : Nat) : Nat :=
  (List.range lineNo).foldl
    (fun acc i =>
      match buf i with
      | some line => acc + line.length
      | none => acc) 0

/-- Embeds `_get_line_start_and_end_points(line_no)`: the start point is
the accumulated length of all earlier tracked rows; the end point adds the
row's own tracked length when the row is tracked. -/
def get_line_start_and_end_points (buf : Nat → Option String) (lineNo : Nat) : Nat × Nat :=
  (line_start_point buf lineNo,
   match buf lineNo with
   | some line => line_start_point buf lineNo + line.length
   | none => line_start_point buf lineNo)

/-- Operations issued against the sublime view (the display surface). -/
inductive ViewOp where
  | eraseSpan (regionStart regionEnd : Nat)
  | replaceSpan (regionStart regionEnd : Nat) (content : String)
  | eraseRegionsOp (key : String)
  | addRegionsOp (key : String) (regionStart regionEnd : Nat)
  deriving DecidableEq

/-- Embeds `_update_line_content(line_no, content)`: compute the row's
span; on `None` run `terminal_view_erase` over it and drop the row from
`_buffer_contents`; otherwise run `terminal_view_replace` with the content
plus a newline and record that text as the row's tracked content.
Returns the view operations issued and the new `_buffer_contents`. -/
def update_line_content (buf : Nat → Option String) (lineNo : Nat)
    (content : Option String) : List ViewOp × (Nat → Option String) :=
  match content with
  | none =>
    ([ViewOp.eraseSpan (get_line_start_and_end_points buf lineNo).1
        (get_line_start_and_end_points buf lineNo).2],
     fun i => if i = lineNo then none else buf i)
  | some c =>
    ([ViewOp.replaceSpan (get_line_start_and_end_points buf lineNo).1
        (get_line_start_and_end_points buf lineNo).2 (c ++ "\n")],
     fun i => if i = lineNo then some (c ++ "\n") else buf i)

/-- A sequence of dirty-row updates applied through
`_update_line_content`, threading `_buffer_contents`. -/
def apply_updates (buf : Nat → Option String) :
    List (Nat × Option String) → (Nat → Option String)
  | [] => buf
  | (lineNo, content) :: rest =>
    apply_updates (update_line_content buf lineNo content).2 rest

/-! ### TerminalView2.py : color-region bookkeeping (`_color_regions`) -/

/-- `self._color_regions` maps a row to the deque of region keys painted
on it; the head of the list is the left end of the deque. -/
def register_color_region (regions : Nat → Option (List String)) (lineNo : Nat)
    (key : String) : Nat → Option (List String) :=
  match regions lineNo with
  | some d => fun i => if i = lineNo then some (key :: d) else regions i
  | none => fun i => if i = lineNo then some [key] else regions i

/-- Embeds `_remove_color_regions_on_line(line_no)`: pop keys from the
left of the row's deque until it is empty, erasing each popped key's
regions; a row with no deque does nothing. The deque object stays in the
dict, emptied in place. -/
def remove_color_regions_on_line (regions : Nat → Option (List String))
    (lineNo : Nat) : List ViewOp × (Nat → Option (List String)) :=
  match regions lineNo with
  | some d =>
    (d.map ViewOp.eraseRegionsOp,
     fun i => if i = lineNo then some [] else regions i)
  | none => ([], regions)

/-- Registering a list of keys on a row in order, via
`_register_color_region` (as `_update_line_colors` does run by run). -/
def register_color_regions_list (regions : Nat → Option (List String))
    (lineNo : Nat) (keys : List String) : Nat → Option (List String) :=
  keys.foldl (fun r k => register_color_region r lineNo k) regions

/-- One dirty row processed by the loop body of `_update_lines`: first
`_remove_color_regions_on_line`, then `_update_line_content`. Returns the
view operations in issue order, the new `_color_regions` and the new
`_buffer_contents`. -/
def update_dirty_line (regions : Nat → Option (List String))
    (buf : Nat → Option String) (lineNo : Nat) (content : Option String) :
    List ViewOp × (Nat → Option (List String)) × (Nat → Option String) :=
  ((remove_color_regions_on_line regions lineNo).1
     ++ (update_line_content buf lineNo content).1,
   (remove_color_regions_on_line regions lineNo).2,
   (update_line_content buf lineNo content).2)

/-! ### TerminalView2.py : view size and resize detection -/

/-- Python `int()` applied to a nonnegative-or-negative rational:
truncation toward zero. -/
def pyInt (q : ℚ) : ℤ :=
  if q < 0 then -(Int.floor (-q)) else Int.floor q

/-- The pixel metrics `view_size` reads from the sublime view. -/
structure ViewMetrics where
  pixel_width : ℚ
  pixel_height : ℚ
  pixel_per_line : ℚ
  pixel_per_char : ℚ

/-- Embeds `TerminalView2.view_size`: `(0, 0)` when the line height or
character width is zero; otherwise columns and rows are the truncated
pixel ratios minus the configured margins, each raised to 1 when below
1. Returns `(rows, columns)`. -/
def view_size (m : ViewMetrics) (right_margin bottom_margin : ℤ) : ℤ × ℤ :=
  if m.pixel_per_line = 0 ∨ m.pixel_per_char = 0 then (0, 0)
  else
    (if pyInt (m.pixel_height / m.pixel_per_line) - bottom_margin < 1 then 1
     else pyInt (m.pixel_height / m.pixel_per_line) - bottom_margin,
     if pyInt (m.pixel_width / m.pixel_per_char) - right_margin < 1 then 1
     else pyInt (m.pixel_width / m.pixel_per_char) - right_margin)

/-- The `(self._rows, self._cols)` pair last pushed by
`_resize_screen_if_needed`. -/
structure ScreenSizeState where
  rows : ℤ
  cols : ℤ
  deriving DecidableEq, BEq

/-- Calls pushed by `_resize_screen_if_needed` to the process session and
the terminal emulator. -/
inductive ResizeCall where
  | shellUpdateScreenSize (rows cols : ℤ)
  | emulatorResize (rows cols : ℤ)
  deriving DecidableEq, BEq

/-- Embeds `_resize_screen_if_needed` for one surface-size report
`(rows, cols)` from `view_size`: compute the absolute row and column
differences against the last notified size, and when either is nonzero
push the new size to the shell and the emulator and record it. -/
def resize_screen_if_needed (st : ScreenSizeState) (report : ℤ × ℤ) :
    List ResizeCall × ScreenSizeState :=
  if |st.rows - report.1| ≠ 0 ∨ |st.cols - report.2| ≠ 0 then
    ([ResizeCall.shellUpdateScreenSize report.1 report.2,
      ResizeCall.emulatorResize report.1 report.2],
     { rows := report.1, cols := report.2 })
  else ([], st)

/-- The trace of resize calls produced by running
`_resize_screen_if_needed` on each of a sequence of surface-size
reports (one per tick). -/
def process_size_reports (st : ScreenSizeState) : List (ℤ × ℤ) → List ResizeCall
  | [] => []
  | r :: rs =>
    (resize_screen_if_needed st r).1
      ++ process_size_reports (resize_screen_if_needed st r).2 rs

/-- Modelled from the spec ("if it differs from the last notified size,
push the new size to both ProcessSession and GridState"): the resize
trace that pushes exactly on the reports that differ from the last
notified size, and never on a report repeating it. -/
def spec_resize_trace (last : ℤ × ℤ) : List (ℤ × ℤ) → List ResizeCall
  | [] => []
  | r :: rs =>
    if r ≠ last then
      ResizeCall.shellUpdateScreenSize r.1 r.2
        :: ResizeCall.emulatorResize r.1 r.2
        :: spec_resize_trace r rs
    else spec_resize_trace last rs

/-- A concrete tracked-content map used to witness the row-span
theorems: row 0 holds three characters (content plus newline). -/
def witnessBuf : Nat → Option String :=
  fun i => if i = 0 then some "hi\n" else none

/-! ### Helper lemmas -/

/-- The accumulation step of `line_start_point` adds the tracked length. -/
theorem line_start_step_eq (buf : Nat → Option String) :
    (fun (acc i : Nat) =>
      match buf i with
      | some line => acc + line.length
      | none => acc)
      = fun (acc i : Nat) => acc + trackedLen buf i := by
  funext acc i
  cases h : buf i <;> simp [trackedLen, h]

/-- `line_start_point` computes the sum of tracked lengths of earlier rows. -/
theorem line_start_point_eq_sum (buf : Nat → Option String) (k : Nat) :
    line_start_point buf k = ∑ i ∈ Finset.range k, trackedLen buf i := by
  rw [line_start_point, line_start_step_eq]
  induction k with
  | zero => simp
  | succ n ih =>
    rw [Finset.sum_range_succ, List.range_succ, List.foldl_append, ih]
    simp

/-- The row span as the cumulative-length sums. -/
theorem span_eq_sum (buf : Nat → Option String) (k : Nat) :
    get_line_start_and_end_points buf k
      = (∑ i ∈ Finset.range k, trackedLen buf i,
         (∑ i ∈ Finset.range k, trackedLen buf i) + trackedLen buf k) := by
  rw [get_line_start_and_end_points]
  cases h : buf k <;> simp [trackedLen, h, line_start_point_eq_sum]

/-- `Char.ofNat` is faithful on the codepoints ASCII case folding produces. -/
theorem char_ofNat_faithful :
    ∀ m, m < 123 → (97 ≤ m → (Char.ofNat m).toNat = m) := by decide

/-- ASCII case folding is idempotent on characters. -/
theorem lowerChar_idem (c : Char) : lowerChar (lowerChar c) = lowerChar c := by
  unfold lowerChar
  by_cases h : 65 ≤ c.toNat ∧ c.toNat ≤ 90
  · rw [if_pos h]
    have h1 : (Char.ofNat (c.toNat + 32)).toNat = c.toNat + 32 :=
      char_ofNat_faithful (c.toNat + 32) (by omega) (by omega)
    rw [if_neg (by rw [h1]; omega)]
  · rw [if_neg h, if_neg h]

/-- ASCII case folding is idempotent on strings. -/
theorem pyLower_idem (s : String) : pyLower (pyLower s) = pyLower s := by
  have h : lowerChar ∘ lowerChar = lowerChar := funext lowerChar_idem
  simp only [pyLower]
  rw [List.map_map, h]

/-- Registering keys one by one cons-es them onto the row's deque. -/
theorem register_list_deque (lineNo : Nat) (ks : List String) :
    ∀ (regions : Nat → Option (List String)) (d : List String),
      regions lineNo = some d →
      register_color_regions_list regions lineNo ks lineNo = some (ks.reverse ++ d) := by
  induction ks with
  | nil =>
    intro regions d h
    simpa [register_color_regions_list] using h
  | cons k ks ih =>
    intro regions d h
    have step : register_color_region regions lineNo k lineNo = some (k :: d) := by
      simp [register_color_region, h]
    have e : register_color_regions_list regions lineNo (k :: ks)
        = register_color_regions_list (register_color_region regions lineNo k) lineNo ks := rfl
    rw [e, ih _ _ step]
    simp

/-- The guard of `_resize_screen_if_needed` holds exactly when the report
differs from the last notified size. -/
theorem resize_cond_iff (st : ScreenSizeState) (a b : ℤ) :
    (|st.rows - a| ≠ 0 ∨ |st.cols - b| ≠ 0) ↔ ((a, b) : ℤ × ℤ) ≠ (st.rows, st.cols) := by
  simp only [ne_eq, abs_eq_zero, sub_eq_zero, Prod.mk.injEq, not_and_or]
  constructor
  · rintro (h | h) <;> [left; right] <;> omega
  · rintro (h | h) <;> [left; right] <;> omega

/-! ### Claim theorems -/

/-- C1 (code bug evidence): on a stopped session (`self._process is None`),
`is_running()` is false yet `update_screen_size(24, 80)` still issues the
window-size-change ioctl, because the guard `if self.is_running:` tests the
bound method object instead of calling it. -/
theorem c1_update_screen_size_not_noop_when_stopped :
    LinuxPty.is_running ⟨none⟩ = false ∧
    LinuxPty.update_screen_size ⟨none⟩ 24 80 = [SysEffect.ioctlWinsz 24 80] :=
  ⟨rfl, rfl⟩

/-- C10: `receive_output` on a session that is not running returns `None`
and performs no readiness check and no read on the pty master. -/
theorem c10_receive_output_not_running (self : LinuxPty) (maxReadSize : Nat)
    (selectReady : Bool) (ptyData : String) (h : self.is_running = false) :
    self.receive_output maxReadSize selectReady ptyData = (none, []) := by
  simp [LinuxPty.receive_output, h]

/-- Witness for C10 at a stopped session. -/
theorem c10_receive_output_not_running_witness :
    LinuxPty.is_running ⟨none⟩ = false ∧
    LinuxPty.receive_output ⟨none⟩ 4096 true "data" = (none, []) :=
  ⟨rfl, c10_receive_output_not_running ⟨none⟩ 4096 true "data" rfl⟩

/-- C5: a keypress with `meta = True` combined with any other modifier is
rejected with the meta-unsupported error — an outcome distinct from the
non-string-key failure and from any dispatch (hence from a normal mapping
miss, which still dispatches) — and no bytes are written to the pty. -/
theorem c5_meta_rejected (shell : LinuxPty) (key : String)
    (ctrl alt shift : Option Bool) (hasActiveInstance : Bool)
    (h : ctrl = some true ∨ alt = some true ∨ shift = some true) :
    keypress_command_run (PyVal.str key) ctrl alt shift (some true) hasActiveInstance
        = KeypressOutcome.metaUnsupportedError ∧
    KeypressOutcome.metaUnsupportedError ≠ KeypressOutcome.nonStringKeyError ∧
    (∀ k c a s m, KeypressOutcome.metaUnsupportedError ≠ KeypressOutcome.dispatched k c a s m) ∧
    keypress_command_writes shell (PyVal.str key) ctrl alt shift (some true)
        hasActiveInstance = [] := by
  refine ⟨rfl, by simp, by intro k c a s m; simp, rfl⟩

/-- Witness for C5: ctrl+meta keypress on a running session. -/
theorem c5_meta_rejected_witness :
    ((some true : Option Bool) = some true ∨ (none : Option Bool) = some true ∨
        (none : Option Bool) = some true) ∧
    (keypress_command_run (PyVal.str "a") (some true) none none (some true) true
        = KeypressOutcome.metaUnsupportedError ∧
     KeypressOutcome.metaUnsupportedError ≠ KeypressOutcome.nonStringKeyError ∧
     (∀ k c a s m, KeypressOutcome.metaUnsupportedError ≠ KeypressOutcome.dispatched k c a s m) ∧
     keypress_command_writes ⟨some true⟩ (PyVal.str "a") (some true) none none (some true)
        true = []) :=
  ⟨Or.inl rfl, c5_meta_rejected ⟨some true⟩ "a" (some true) none none true (Or.inl rfl)⟩

/-- C6: for every letter `a..z`, supplied lower- or upper-case, with
`ctrl = True`, the encoder yields exactly `chr(ord(lowercase) - 96)`,
regardless of the shift (and meta) flags. -/
theorem c6_ctrl_letter (n : Nat) (h : n < 26) (shift meta : Bool) :
    send_keypress_code (String.singleton (Char.ofNat (97 + n))) true false shift meta
        = String.singleton (Char.ofNat (n + 1)) ∧
    send_keypress_code (String.singleton (Char.ofNat (65 + n))) true false shift meta
        = String.singleton (Char.ofNat (n + 1)) := by
  revert shift meta
  revert n
  decide

/-- Witness for C6 at the letter `a`. -/
theorem c6_ctrl_letter_witness :
    0 < 26 ∧
    (send_keypress_code (String.singleton (Char.ofNat (97 + 0))) true false false false
        = String.singleton (Char.ofNat (0 + 1)) ∧
     send_keypress_code (String.singleton (Char.ofNat (65 + 0))) true false false false
        = String.singleton (Char.ofNat (0 + 1))) :=
  ⟨by decide, c6_ctrl_letter 0 (by decide) false false⟩

/-- C7 (counterexample): with no modifier, key-name lookup is
case-sensitive — `"Enter"` misses the plain-key table and passes through
literally while `"enter"` encodes to carriage return. -/
theorem c7_counterexample :
    send_keypress_code "Enter" false false false false = "Enter" ∧
    send_keypress_code "enter" false false false false = "\r" ∧
    ("Enter" : String) ≠ "\r" :=
  ⟨rfl, rfl, by decide⟩

/-- C7 (amended): key-name lookup is case-insensitive under the ctrl and
alt paths (which lower-case the key first); encoding any key there equals
encoding its lower-cased form. -/
theorem c7_amended (key : String) (ctrl alt shift meta : Bool)
    (h : ctrl = true ∨ alt = true) :
    send_keypress_code key ctrl alt shift meta
      = send_keypress_code (pyLower key) ctrl alt shift meta := by
  have hc : get_ctrl_combination_key_code key
      = get_ctrl_combination_key_code (pyLower key) := by
    unfold get_ctrl_combination_key_code
    rw [pyLower_idem]
  have ha : get_alt_combination_key_code key
      = get_alt_combination_key_code (pyLower key) := by
    unfold get_alt_combination_key_code
    rw [pyLower_idem]
  unfold send_keypress_code
  cases ctrl <;> cases alt <;> simp_all

/-- Witness for C7 (amended) at `"Enter"` with ctrl. -/
theorem c7_amended_witness :
    (true = true ∨ false = true) ∧
    send_keypress_code "Enter" true false false false
      = send_keypress_code (pyLower "Enter") true false false false :=
  ⟨Or.inl rfl, c7_amended "Enter" true false false false (Or.inl rfl)⟩

/-- C2: after any sequence of dirty-row updates (starting from the empty
tracked-content map), the computed span for row `k` has start equal to the
sum of tracked-content lengths of rows `0..k-1` (absent rows contribute
zero) and end equal to the start plus row `k`'s own tracked length (zero
when absent). -/
theorem c2_span_arithmetic (updates : List (Nat × Option String)) (k : Nat) :
    get_line_start_and_end_points (apply_updates (fun _ => none) updates) k
      = (∑ i ∈ Finset.range k, trackedLen (apply_updates (fun _ => none) updates) i,
         (∑ i ∈ Finset.range k, trackedLen (apply_updates (fun _ => none) updates) i)
           + trackedLen (apply_updates (fun _ => none) updates) k) :=
  span_eq_sum _ k

/-- C8: a dirty update with content `None` for row `r` erases exactly row
`r`'s current span, removes `r` from the tracked contents, and every
higher-indexed row's subsequent start offset drops by `r`'s former tracked
length. -/
theorem c8_clear_row (buf : Nat → Option String) (r k : Nat) (h : r < k) :
    (update_line_content buf r none).1
        = [ViewOp.eraseSpan (get_line_start_and_end_points buf r).1
             (get_line_start_and_end_points buf r).2] ∧
    (update_line_content buf r none).2 r = none ∧
    (get_line_start_and_end_points ((update_line_content buf r none).2) k).1
          + trackedLen buf r
        = (get_line_start_and_end_points buf k).1 := by
  refine ⟨rfl, by simp [update_line_content], ?_⟩
  have hr : r ∈ Finset.range k := Finset.mem_range.mpr h
  show line_start_point (fun i => if i = r then none else buf i) k + trackedLen buf r
      = line_start_point buf k
  rw [line_start_point_eq_sum, line_start_point_eq_sum]
  rw [← Finset.sum_erase_add _ _ hr, ← Finset.sum_erase_add _ _ hr]
  have h0 : trackedLen (fun i => if i = r then none else buf i) r = 0 := by
    simp [trackedLen]
  have h1 : ∑ i ∈ (Finset.range k).erase r,
        trackedLen (fun i => if i = r then none else buf i) i
      = ∑ i ∈ (Finset.range k).erase r, trackedLen buf i := by
    refine Finset.sum_congr rfl ?_
    intro i hi
    have hne : i ≠ r := Finset.ne_of_mem_erase hi
    simp [trackedLen, hne]
  rw [h0, h1]
  omega

/-- Witness for C8: clearing row 0 of a one-row buffer shifts row 1. -/
theorem c8_clear_row_witness :
    0 < 1 ∧
    ((update_line_content witnessBuf 0 none).1
        = [ViewOp.eraseSpan (get_line_start_and_end_points witnessBuf 0).1
             (get_line_start_and_end_points witnessBuf 0).2] ∧
     (update_line_content witnessBuf 0 none).2 0 = none ∧
     (get_line_start_and_end_points ((update_line_content witnessBuf 0 none).2) 1).1
           + trackedLen witnessBuf 0
         = (get_line_start_and_end_points witnessBuf 1).1) :=
  ⟨Nat.one_pos, c8_clear_row witnessBuf 0 1 Nat.one_pos⟩

/-- C3 (counterexample): registering handle `"a"` then `"b"` on row 0 and
rewriting the row removes them as `["b", "a"]` — the reverse of the
registration order, not the registration order. -/
theorem c3_counterexample :
    (remove_color_regions_on_line
        (register_color_region (register_color_region (fun _ => none) 0 "a") 0 "b") 0).1
      = [ViewOp.eraseRegionsOp "b", ViewOp.eraseRegionsOp "a"] ∧
    [ViewOp.eraseRegionsOp "b", ViewOp.eraseRegionsOp "a"]
      ≠ [ViewOp.eraseRegionsOp "a", ViewOp.eraseRegionsOp "b"] :=
  ⟨rfl, by decide⟩

/-- C3 (amended): when a dirty row is rewritten, every previously
registered color-region handle is removed before the row's content
operation, in the reverse of registration order, and afterwards no
identifier remains in the row's tracked region list. -/
theorem c3_amended (buf : Nat → Option String) (lineNo : Nat) (keys : List String)
    (content : Option String) :
    (update_dirty_line (register_color_regions_list (fun _ => none) lineNo keys)
        buf lineNo content).1
      = keys.reverse.map ViewOp.eraseRegionsOp
          ++ (update_line_content buf lineNo content).1 ∧
    (((update_dirty_line (register_color_regions_list (fun _ => none) lineNo keys)
        buf lineNo content).2.1 lineNo).getD [])
      = [] := by
  cases keys with
  | nil => exact ⟨rfl, rfl⟩
  | cons k ks =>
    have step : register_color_region (fun _ => none) lineNo k lineNo = some [k] := by
      simp [register_color_region]
    have e : register_color_regions_list (fun _ => none) lineNo (k :: ks)
        = register_color_regions_list (register_color_region (fun _ => none) lineNo k)
            lineNo ks := rfl
    have h1 : register_color_regions_list (fun _ => none) lineNo (k :: ks) lineNo
        = some ((k :: ks).reverse) := by
      rw [e, register_list_deque lineNo ks _ [k] step]
      simp
    constructor
    · simp only [update_dirty_line, remove_color_regions_on_line, h1]
    · simp only [update_dirty_line, remove_color_regions_on_line, h1]
      simp

/-- C9 (counterexample): for the report sequence (1,1), (2,2), (1,1) from
initial size (0,0), `update_screen_size` is invoked twice for the distinct
pair (1,1), not exactly once. -/
theorem c9_counterexample :
    (process_size_reports ⟨0, 0⟩ [(1, 1), (2, 2), (1, 1)]).count
        (ResizeCall.shellUpdateScreenSize 1 1) = 2 ∧ (2 : Nat) ≠ 1 :=
  ⟨by decide, by decide⟩

/-- C9 (amended): over any sequence of surface-size reports, the session
and the grid are notified exactly on the reports that differ from the last
notified size — never when a report repeats it — matching the
specification-side trace. -/
theorem c9_amended (st : ScreenSizeState) (reports : List (ℤ × ℤ)) :
    process_size_reports st reports = spec_resize_trace (st.rows, st.cols) reports := by
  induction reports generalizing st with
  | nil => rfl
  | cons r rs ih =>
    obtain ⟨a, b⟩ := r
    simp only [process_size_reports, spec_resize_trace, resize_screen_if_needed]
    by_cases h : ((a, b) : ℤ × ℤ) = (st.rows, st.cols)
    · have hc : ¬ (|st.rows - a| ≠ 0 ∨ |st.cols - b| ≠ 0) :=
        fun hcon => (resize_cond_iff st a b).mp hcon h
      rw [if_neg hc, if_neg (not_not_intro h)]
      simpa using ih st
    · have hc : |st.rows - a| ≠ 0 ∨ |st.cols - b| ≠ 0 :=
        (resize_cond_iff st a b).mpr h
      rw [if_pos hc, if_pos h]
      simpa using ih ⟨a, b⟩

/-- C4 (counterexample): with line height 0 the reported size is (0, 0),
not clamped to a minimum of 1. -/
theorem c4_counterexample :
    view_size ⟨100, 100, 0, 10⟩ 3 0 = (0, 0) ∧ ¬ (1 ≤ (0 : ℤ)) :=
  ⟨by simp [view_size], by decide⟩

/-- C4 (amended): whenever line height and character width are nonzero,
the reported size satisfies rows ≥ 1 and cols ≥ 1 for every viewport
extent and margins. -/
theorem c4_amended (m : ViewMetrics) (right_margin bottom_margin : ℤ)
    (h1 : m.pixel_per_line ≠ 0) (h2 : m.pixel_per_char ≠ 0) :
    1 ≤ (view_size m right_margin bottom_margin).1 ∧
    1 ≤ (view_size m right_margin bottom_margin).2 := by
  rw [view_size, if_neg (not_or.mpr ⟨h1, h2⟩)]
  constructor
  · show 1 ≤ (if pyInt (m.pixel_height / m.pixel_per_line) - bottom_margin < 1 then 1
      else pyInt (m.pixel_height / m.pixel_per_line) - bottom_margin)
    split <;> omega
  · show 1 ≤ (if pyInt (m.pixel_width / m.pixel_per_char) - right_margin < 1 then 1
      else pyInt (m.pixel_width / m.pixel_per_char) - right_margin)
    split <;> omega

/-- Witness for C4 (amended) at 100×100 pixels with 10-pixel cells. -/
theorem c4_amended_witness :
    ((⟨100, 100, 10, 10⟩ : ViewMetrics).pixel_per_line ≠ 0) ∧
    ((⟨100, 100, 10, 10⟩ : ViewMetrics).pixel_per_char ≠ 0) ∧
    (1 ≤ (view_size ⟨100, 100, 10, 10⟩ 3 0).1 ∧
     1 ≤ (view_size ⟨100, 100, 10, 10⟩ 3 0).2) :=
  ⟨by norm_num, by norm_num,
   c4_amended ⟨100, 100, 10, 10⟩ 3 0 (by norm_num) (by norm_num)⟩

end TerminalView
